import Mathlib

/-
Verification of the GeeORM core: a shallow embedding, in Lean 4, of the
clause composition engine, the schema reflector, the session execution
paths, the migration column diff, and the transaction wrapper, together
with theorems settling the specification claims about them.

Go values passed through `interface{}` are modelled by the inductive
`GoVal`; Go maps keyed by strings are modelled by association lists whose
list order stands for the (unspecified) map iteration order; Go panics are
modelled by `Option` results (`none` = panic); the SQL driver boundary is
an oracle (`Driver`) parameterised over the connection used, so that
theorems can observe whether a statement ran on the direct connection or
on the transaction handle.
-/

namespace Geeorm

/-- Model of a Go `interface{}` value as it flows through the clause
builder and session: strings, integers, string slices (`[]string`),
generic slices (`[]interface{}`) and string-keyed maps
(`map[string]interface{}`, as an association list in iteration order). -/
inductive GoVal where
  | str : String → GoVal
  | int : Int → GoVal
  | strList : List String → GoVal
  | list : List GoVal → GoVal
  | kvMap : List (String × GoVal) → GoVal

/-- A row of scanned column values returned by a query. -/
abbrev Row := List GoVal

/-- Go `strings.Join`: elements joined with the separator between them. -/
def goJoin (elems : List String) (sep : String) : String :=
  match elems with
  | [] => ""
  | e :: es => es.foldl (fun acc x => acc ++ sep ++ x) e

/-- Rendering of a `GoVal` under `fmt.Sprintf` verbs `%s`/`%v` as used by
the clause generators (they are only ever applied to strings and ints). -/
def gfmt : GoVal → String
  | GoVal.str s => s
  | GoVal.int n => toString n
  | GoVal.strList l => "[" ++ goJoin l " " ++ "]"
  | GoVal.list _ => "[...]"
  | GoVal.kvMap _ => "map[...]"

/-- The closed set of clause kinds (`clause.Type` in the source). -/
inductive CType where
  | INSERT | VALUES | SELECT | LIMIT | WHERE | ORDERBY | UPDATE | DELETE | COUNT
  deriving DecidableEq, Repr

/-- genBindVars: `num` placeholders joined by a comma
(`genBindVars 3 = "?, ?, ?"`). -/
def genBindVars (num : Nat) : String :=
  goJoin (List.replicate num "?") ", "

/-- Generator for INSERT: `values[0]` is the table name, `values[1]` the
`[]string` of field names; a missing argument or a non-`[]string` second
argument is a Go panic (`none`). -/
def _insert (values : List GoVal) : Option (String × List GoVal) :=
  match values with
  | tableName :: fv :: _ =>
    match fv with
    | GoVal.strList fields =>
        some ("INSERT INTO " ++ gfmt tableName ++ " (" ++ goJoin fields ", " ++ ")", [])
    | _ => none
  | _ => none

/-- Loop body of the VALUES generator: each element must be an
`[]interface{}` row; `bindStr` is computed from the first row's length and
reused for every later row, exactly as in the source. -/
def valuesLoop (bindStr : String) : List GoVal → Option (String × List GoVal)
  | [] => some ("", [])
  | GoVal.list row :: rest =>
      let b := if bindStr = "" then genBindVars row.length else bindStr
      (valuesLoop b rest).map fun sv =>
        ("(" ++ b ++ ")" ++ (if rest.isEmpty then "" else ", ") ++ sv.1, row ++ sv.2)
  | _ :: _ => none

/-- Generator for VALUES: one placeholder group per row, parameters are the
concatenation of all rows in order. -/
def _values (values : List GoVal) : Option (String × List GoVal) :=
  (valuesLoop "" values).map fun sv => ("VALUES " ++ sv.1, sv.2)

/-- Generator for SELECT: `values[0]` table name, `values[1]` field names. -/
def _select (values : List GoVal) : Option (String × List GoVal) :=
  match values with
  | tableName :: fv :: _ =>
    match fv with
    | GoVal.strList fields =>
        some ("SELECT " ++ goJoin fields ", " ++ " FROM " ++ gfmt tableName, [])
    | _ => none
  | _ => none

/-- Generator for LIMIT: fragment `LIMIT ?`, parameters are the raw
argument list. -/
def _limit (values : List GoVal) : Option (String × List GoVal) :=
  some ("LIMIT ?", values)

/-- Generator for WHERE: `values[0]` is the predicate text, the rest are
its parameters; an empty argument list is a Go panic. -/
def _where (values : List GoVal) : Option (String × List GoVal) :=
  match values with
  | desc :: vars => some ("WHERE " ++ gfmt desc, vars)
  | [] => none

/-- Generator for ORDER BY: fragment from `values[0]`, no parameters. -/
def _orderBy (values : List GoVal) : Option (String × List GoVal) :=
  match values with
  | v :: _ => some ("ORDER BY " ++ gfmt v, [])
  | [] => none

/-- Generator for UPDATE: `values[0]` table name, `values[1]` a
`map[string]interface{}`; the single Go loop that appends `key = ?` to the
key list and the value to the parameter list in map iteration order is
modelled by the two parallel `map`s over the association list. -/
def _update (values : List GoVal) : Option (String × List GoVal) :=
  match values with
  | tableName :: mv :: _ =>
    match mv with
    | GoVal.kvMap m =>
        let keys := m.map fun kv => kv.1 ++ " = ?"
        let vars := m.map fun kv => kv.2
        some ("UPDATE " ++ gfmt tableName ++ " SET " ++ goJoin keys ", ", vars)
    | _ => none
  | _ => none

/-- Generator for DELETE. -/
def _delete (values : List GoVal) : Option (String × List GoVal) :=
  match values with
  | v :: _ => some ("DELETE FROM " ++ gfmt v, [])
  | [] => none

/-- Generator for COUNT: delegates to SELECT with column list
`["count(*)"]`. -/
def _count (values : List GoVal) : Option (String × List GoVal) :=
  match values with
  | v :: _ => _select [v, GoVal.strList ["count(*)"]]
  | [] => none

/-- The generator dispatch table (`generators` map in the source). -/
def generators : CType → List GoVal → Option (String × List GoVal)
  | CType.INSERT => _insert
  | CType.VALUES => _values
  | CType.SELECT => _select
  | CType.LIMIT => _limit
  | CType.WHERE => _where
  | CType.ORDERBY => _orderBy
  | CType.UPDATE => _update
  | CType.DELETE => _delete
  | CType.COUNT => _count

/-- The Clause Set: both per-kind maps of the source (`sql`, `sqlVars`),
modelled as functions returning `none` for absent keys. -/
@[ext] structure Clause where
  sql : CType → Option String
  sqlVars : CType → Option (List GoVal)

/-- The zero value `clause.Clause{}` (both maps empty). -/
def Clause.empty : Clause := ⟨fun _ => none, fun _ => none⟩

/-- Clause.Set: run the generator for `name` on the arguments and store
fragment and parameters under `name`, overwriting any prior entry; a
generator panic propagates (`none`). -/
def Clause.Set (c : Clause) (name : CType) (vars : List GoVal) : Option Clause :=
  (generators name vars).map fun sv =>
    { sql := fun t => if t = name then some sv.1 else c.sql t,
      sqlVars := fun t => if t = name then some sv.2 else c.sqlVars t }

/-- Clause.Build: walk `orders`, collecting fragment and parameters of each
kind that has an entry, then join the fragments with single spaces. -/
def Clause.Build (c : Clause) (orders : List CType) : String × List GoVal :=
  let r := orders.foldl (fun (acc : List String × List GoVal) order =>
    match c.sql order with
    | some sql => (acc.1 ++ [sql], acc.2 ++ (c.sqlVars order).getD [])
    | none => acc) ([], [])
  (goJoin r.1 " ", r.2)

/-- Clause.Build viewed as a state transformer on the receiver: the method
body of `Build` only reads `c.sql` / `c.sqlVars` and never assigns to
them, so the receiver after the call is the receiver before it. -/
def Clause.BuildSt (c : Clause) (orders : List CType) : (String × List GoVal) × Clause :=
  (c.Build orders, c)

/-! Schema reflector (package `schema`). -/

/-- The runtime type of a record field, abstractly (the dialect maps it to
a storage type string). -/
inductive GoType where
  | bool | int | int64 | float | string | slice | structT : String → GoType

/-- A declared field of a Go struct type, as reflection exposes it:
name, anonymous (embedded) flag, runtime type, and the optional value of
the `geeorm` struct tag. -/
structure GoField where
  name : String
  anonymous : Bool
  typ : GoType
  tag : Option String

/-- A Go struct type: bare type name and fields in declaration order. -/
structure GoStructType where
  name : String
  fields : List GoField

/-- go/ast `IsExported`: the name starts with an upper-case letter. -/
def isExported (name : String) : Bool :=
  match name.data with
  | [] => false
  | c :: _ => c.isUpper

/-- One column of the derived table schema (`schema.Field`); `Typ` stands
for the source's `Type` field, which is a reserved word here. -/
structure Field where
  Name : String
  Typ : String
  Tag : String

/-- The derived table schema (`schema.Schema`): source model type, table
name, ordered columns, the parallel column-name list, and the name-to-Field
map (a function returning `none` for absent names). -/
structure Schema where
  Model : GoStructType
  Name : String
  Fields : List Field
  FieldNames : List String
  fieldMap : String → Option Field

/-- GetField: lookup in the name-to-Field map. -/
def Schema.GetField (s : Schema) (name : String) : Option Field :=
  s.fieldMap name

/-- The filter of `Parse`: a field becomes a column iff it is not
anonymous and its name is exported. -/
def colPred (p : GoField) : Bool :=
  !p.anonymous && isExported p.name

/-- The column built from one struct field: the field's own name, the
dialect's storage type for its type, and the `geeorm` tag value or "". -/
def mkField (d : GoType → String) (p : GoField) : Field :=
  { Name := p.name, Typ := d p.typ, Tag := (p.tag).getD "" }

/-- The loop body of `Parse`: when the field passes the filter, append a
column to `Fields`, its name to `FieldNames`, and insert it into
`fieldMap`; otherwise the field is silently skipped. -/
def parseStep (d : GoType → String) (sch : Schema) (p : GoField) : Schema :=
  if colPred p then
    let field := mkField d p
    { sch with
        Fields := sch.Fields ++ [field],
        FieldNames := sch.FieldNames ++ [p.name],
        fieldMap := fun n => if n = p.name then some field else sch.fieldMap n }
  else sch

/-- schema.Parse: walk the struct's fields in declaration order, starting
from the schema holding the model and the bare type name. `d` is the
dialect's `DataTypeOf`. -/
def Parse (d : GoType → String) (t : GoStructType) : Schema :=
  t.fields.foldl (parseStep d)
    { Model := t, Name := t.name, Fields := [], FieldNames := [], fieldMap := fun _ => none }

/-! Session (package `session`): state, raw statement accumulation, the
three execution paths, and the record operations the claims are about. -/

/-- Which underlying connection a statement is handed to: the direct
database connection (`s.db`) or the open transaction handle (`s.tx`). -/
inductive Conn where
  | db | tx
  deriving DecidableEq, Repr

/-- The SQL driver boundary as an oracle, parameterised by the connection
the call is made on. `exec` yields rows affected or an error; `query`
yields the scanned rows or an error (row Scan errors are folded into the
query error); `queryRow` always yields a row (database/sql defers errors
of `QueryRow` to `Scan`). -/
structure Driver where
  exec : Conn → String → List GoVal → Except String Int
  query : Conn → String → List GoVal → Except String (List Row)
  queryRow : Conn → String → List GoVal → Row

/-- Session state: the pending SQL text (`strings.Builder`), its
parameters, the Clause Set, and whether the transaction handle is set
(`tx ≠ nil`). The dialect and the bound schema are passed to the
operations that need them. -/
structure Session where
  sql : String
  sqlVars : List GoVal
  clause : Clause
  tx : Bool

/-- Session.DB: the transaction handle when one is open, else the direct
connection. -/
def Session.DB (s : Session) : Conn :=
  if s.tx then Conn.tx else Conn.db

/-- Session.Clear: reset the pending SQL text, the parameter list and the
Clause Set (the transaction handle is untouched). -/
def Session.Clear (s : Session) : Session :=
  { s with sql := "", sqlVars := [], clause := Clause.empty }

/-- Session.Raw: append the statement text plus a space to the pending
buffer and the values to the pending parameters. -/
def Session.Raw (s : Session) (sql : String) (values : List GoVal) : Session :=
  { s with sql := s.sql ++ sql ++ " ", sqlVars := s.sqlVars ++ values }

/-- Session.Exec: run the pending statement through `s.DB()` (transaction
handle if set); the deferred `Clear` runs on success and on error alike. -/
def Session.Exec (s : Session) (d : Driver) : Except String Int × Session :=
  (d.exec s.DB s.sql s.sqlVars, s.Clear)

/-- Session.QueryRow: the source calls `s.db.QueryRow`, the direct
connection, not `s.DB()` — so the connection used is `Conn.db` even when
the transaction handle is set. The deferred `Clear` still runs. -/
def Session.QueryRow (s : Session) (d : Driver) : Row × Session :=
  (d.queryRow Conn.db s.sql s.sqlVars, s.Clear)

/-- Session.QueryRows: run the pending query through `s.DB()`; the
deferred `Clear` runs on success and on error alike. -/
def Session.QueryRows (s : Session) (d : Driver) : Except String (List Row) × Session :=
  (d.query s.DB s.sql s.sqlVars, s.Clear)

/-- Session.Where: set the WHERE clause from the predicate text and its
parameters, returning the session for chaining. -/
def Session.Where (s : Session) (desc : String) (args : List GoVal) : Option Session :=
  (s.clause.Set CType.WHERE (GoVal.str desc :: args)).map fun cl => { s with clause := cl }

/-- Session.Limit: set the LIMIT clause, returning the session for
chaining. -/
def Session.Limit (s : Session) (num : Int) : Option Session :=
  (s.clause.Set CType.LIMIT [GoVal.int num]).map fun cl => { s with clause := cl }

/-- Session.OrderBy: set the ORDER BY clause, returning the session for
chaining. -/
def Session.OrderBy (s : Session) (desc : String) : Option Session :=
  (s.clause.Set CType.ORDERBY [GoVal.str desc]).map fun cl => { s with clause := cl }

/-- Session.Find: set SELECT from the bound schema, build
SELECT+WHERE+ORDERBY+LIMIT, execute via `QueryRows`, and return the rows
scanned into fresh elements (or the first error). The destination-type
reflection is abstracted into the `table` argument. -/
def Session.Find (s : Session) (d : Driver) (table : Schema) :
    Option (Except String (List Row) × Session) :=
  (s.clause.Set CType.SELECT [GoVal.str table.Name, GoVal.strList table.FieldNames]).map
    fun cl =>
      let bv := Clause.Build cl [CType.SELECT, CType.WHERE, CType.ORDERBY, CType.LIMIT]
      (({ s with clause := cl }).Raw bv.1 bv.2).QueryRows d

/-- The error type of `Session.First`: either an error propagated from the
query (driver boundary) or the distinct value created by
`errors.New("NOT FOUND")` for the zero-row case. -/
inductive GoErr where
  | driver : String → GoErr
  | notFound : GoErr
  deriving DecidableEq, Repr

/-- Session.First: `Limit(1)` then `Find` into a one-element staging
slice; a `Find` error is returned as is, an empty result becomes the
distinct NOT FOUND error, otherwise the sole element is copied into the
destination (returned here as the `ok` value). -/
def Session.First (s : Session) (d : Driver) (table : Schema) :
    Option (Except GoErr Row × Session) :=
  (s.Limit 1).bind fun s1 =>
    (s1.Find d table).map fun fr =>
      match fr.1 with
      | Except.error e => (Except.error (GoErr.driver e), fr.2)
      | Except.ok [] => (Except.error GoErr.notFound, fr.2)
      | Except.ok (r :: _) => (Except.ok r, fr.2)

/-- The key/value pairing loop of `Session.Update` (`for i := 0; i <
len(kv); i += 2 { m[kv[i].(string)] = kv[i+1] }`): `none` models the Go
panic when `kv[i+1]` is out of range (odd tail) or `kv[i]` is not a
string. -/
def kvPairs : List GoVal → Option (List (String × GoVal))
  | [] => some []
  | [_] => none
  | k :: v :: rest =>
    match k with
    | GoVal.str ks => (kvPairs rest).map fun m => (ks, v) :: m
    | _ => none

/-- The argument normalisation of `Session.Update`: `kv[0]` (a panic on an
empty argument list) is type-asserted to `map[string]interface{}`; when
that fails the arguments are paired up by `kvPairs`. -/
def updateNormalize (kv : List GoVal) : Option (List (String × GoVal)) :=
  match kv with
  | [] => none
  | GoVal.kvMap m :: _ => some m
  | _ => kvPairs kv

/-- Whether a `GoVal` is a `map[string]interface{}` (the type assertion
tested by `kv[0].(map[string]interface{})`). -/
def isKvMap : GoVal → Bool
  | GoVal.kvMap _ => true
  | _ => false

/-- Session.Update: normalise the arguments to a field-to-value map, set
UPDATE with the bound table's name and that map, build UPDATE+WHERE and
execute. `none` models a panic escaping from the normalisation. -/
def Session.Update (s : Session) (d : Driver) (tableName : String) (kv : List GoVal) :
    Option (Except String Int × Session) :=
  (updateNormalize kv).bind fun m =>
    (s.clause.Set CType.UPDATE [GoVal.str tableName, GoVal.kvMap m]).map fun cl =>
      let bv := Clause.Build cl [CType.UPDATE, CType.WHERE]
      (({ s with clause := cl }).Raw bv.1 bv.2).Exec d

/-! Migration diff and transaction wrapper (package `geeorm`). -/

/-- difference: the elements of `a` absent from `b`, in `a`'s order; the
source builds a membership set from `b` and appends the surviving elements
of `a` to `diff` in a left-to-right loop. -/
def difference (a b : List String) : List String :=
  a.foldl (fun diff s => if b.contains s then diff else diff ++ [s]) []

/-- The column diff computed inside `Engine.Migrate`:
`addCols = difference(declared, live)` and
`delCols = difference(live, declared)`. -/
def migrateDiff (declared live : List String) : List String × List String :=
  (difference declared live, difference live declared)

/-- Outcome of the callback passed to `Engine.Transaction`: it either
aborts with a panic value or returns a result and an error. -/
inductive FnOutcome where
  | panics : GoVal → FnOutcome
  | returns : Option GoVal → Option String → FnOutcome

/-- A transaction-closing call made by the wrapper. -/
inductive TxClose where
  | rollback | commit
  deriving DecidableEq, Repr

/-- How `Engine.Transaction` itself terminates: re-raising the callback's
panic, or returning a result and an error. -/
inductive TxResult where
  | panicked : GoVal → TxResult
  | returned : Option GoVal → Option String → TxResult

/-- Engine.Transaction: begin a transaction on a fresh session (a `Begin`
error returns immediately, before any transaction is open); run the
callback; then the deferred closure: on a recovered panic, roll back and
re-raise the panic after the rollback; on a non-nil error, roll back; else
commit (whose error becomes the returned error). The second component
lists the closing calls made, in order, before the function terminates. -/
def Engine.Transaction (beginErr : Option String) (outcome : FnOutcome)
    (commitErr : Option String) : TxResult × List TxClose :=
  match beginErr with
  | some e => (TxResult.returned none (some e), [])
  | none =>
    match outcome with
    | FnOutcome.panics p => (TxResult.panicked p, [TxClose.rollback])
    | FnOutcome.returns r (some e) => (TxResult.returned r (some e), [TxClose.rollback])
    | FnOutcome.returns r none => (TxResult.returned r commitErr, [TxClose.commit])

/-! Shared concrete instances used by the theorems below. -/

/-- The four clause-setting calls of the SELECT example, in the order the
repository's own test performs them (LIMIT first). -/
def ops4 : List (CType × List GoVal) :=
  [(CType.LIMIT, [GoVal.int 3]),
   (CType.SELECT, [GoVal.str "User", GoVal.strList ["*"]]),
   (CType.WHERE, [GoVal.str "Name = ?", GoVal.str "Tom"]),
   (CType.ORDERBY, [GoVal.str "Age DESC"])]

/-- Run a list of `Set` calls left to right on a Clause Set, propagating a
generator panic. -/
def foldSetO (c : Clause) : List (CType × List GoVal) → Option Clause
  | [] => some c
  | p :: ps => (Clause.Set c p.1 p.2).bind fun c1 => foldSetO c1 ps

/-- The assembly order used by `Find`: SELECT, WHERE, ORDERBY, LIMIT. -/
def buildOrder : List CType := [CType.SELECT, CType.WHERE, CType.ORDERBY, CType.LIMIT]

/-- The Clause Set of the SELECT example after its four `Set` calls. -/
def exClause : Clause := (foldSetO Clause.empty ops4).getD Clause.empty

/-- A driver oracle that reports, in its results, which connection each
call was made on: `exec` returns 0 for the direct connection and 1 for the
transaction handle; the query entry points return a row tagging the
connection by name. -/
def spyDriver : Driver where
  exec := fun c _ _ => Except.ok (match c with | Conn.db => 0 | Conn.tx => 1)
  query := fun c _ _ =>
    Except.ok [[GoVal.str (match c with | Conn.db => "db" | Conn.tx => "tx")]]
  queryRow := fun c _ _ => [GoVal.str (match c with | Conn.db => "db" | Conn.tx => "tx")]

/-- A session whose transaction handle is set (as after a successful
`Begin`), holding a pending single-row query. -/
def txSession : Session :=
  { sql := "SELECT name FROM sqlite_master WHERE type = ? and name = ? ",
    sqlVars := [GoVal.str "table", GoVal.str "User"],
    clause := Clause.empty,
    tx := true }

/-- A fresh session outside any transaction. -/
def sampleSession : Session :=
  { sql := "", sqlVars := [], clause := Clause.empty, tx := false }

/-- Lookup in a string-keyed Go map modelled as an association list: the
value of the first entry with the given key. -/
def mapLookup (m : List (String × GoVal)) (k : String) : Option GoVal :=
  (m.find? fun kv => kv.1 == k).map fun kv => kv.2

/-! Helper lemmas about the clause builder. -/

/-- The collection loop of `Build`, characterised over any accumulator:
it appends the fragments of the present kinds and the concatenation of
their parameter lists. -/
theorem build_loop_eq (c : Clause) :
    ∀ (orders : List CType) (a : List String) (b : List GoVal),
      orders.foldl (fun (acc : List String × List GoVal) order =>
        match c.sql order with
        | some sql => (acc.1 ++ [sql], acc.2 ++ (c.sqlVars order).getD [])
        | none => acc) (a, b)
      = (a ++ orders.filterMap c.sql,
         b ++ (orders.filterMap fun o =>
                 (c.sql o).map fun _ => (c.sqlVars o).getD []).flatten) := by
  intro orders
  induction orders with
  | nil => simp
  | cons o os ih =>
    intro a b
    cases h : c.sql o with
    | none => simp [h, List.filterMap_cons, ih]
    | some s => simp [h, List.filterMap_cons, ih]

/-- Build, declaratively: the fragments of the kinds present in the Clause
Set, in the caller's order, joined by single spaces, paired with the
concatenation of their parameter lists in the same order. -/
theorem Clause.build_eq (c : Clause) (orders : List CType) :
    c.Build orders = (goJoin (orders.filterMap c.sql) " ",
      (orders.filterMap fun o => (c.sql o).map fun _ => (c.sqlVars o).getD []).flatten) := by
  unfold Clause.Build
  rw [build_loop_eq c orders [] []]
  simp

/-- Re-association of two chained `Option.bind`s. -/
theorem option_bind_assoc {α β γ : Type} (o : Option α) (f : α → Option β) (g : β → Option γ) :
    (o.bind f).bind g = o.bind fun a => (f a).bind g := by
  cases o <;> rfl

/-- Two `Set` calls on distinct clause kinds commute: each writes its own
key of the two maps and reads nothing the other wrote. -/
theorem Clause.set_comm (c : Clause) (p q : CType × List GoVal) (h : p.1 ≠ q.1) :
    ((Clause.Set c p.1 p.2).bind fun c1 => Clause.Set c1 q.1 q.2)
      = ((Clause.Set c q.1 q.2).bind fun c1 => Clause.Set c1 p.1 p.2) := by
  unfold Clause.Set
  cases hp : generators p.1 p.2 with
  | none =>
    cases hq : generators q.1 q.2 with
    | none => simp
    | some sq => simp [hp]
  | some sp =>
    cases hq : generators q.1 q.2 with
    | none => simp [hq]
    | some sq =>
      simp only [Option.map_some', Option.some_bind]
      congr 1
      apply Clause.ext <;> funext t <;>
        by_cases h1 : t = p.1 <;> by_cases h2 : t = q.1 <;>
          first
          | exact absurd (h1.symm.trans h2) h
          | simp [h1, h2, h, Ne.symm h]

/-- Permuting a list of `Set` calls whose kinds are pairwise distinct does
not change the resulting Clause Set. -/
theorem foldSet_perm : ∀ {l l' : List (CType × List GoVal)}, l.Perm l' →
    (l.map Prod.fst).Nodup → ∀ c, foldSetO c l = foldSetO c l' := by
  intro l l' hp
  induction hp with
  | nil => intro _ c; rfl
  | cons x h ih =>
    intro hn c
    rw [List.map_cons, List.nodup_cons] at hn
    show (Clause.Set c x.1 x.2).bind _ = (Clause.Set c x.1 x.2).bind _
    cases Clause.Set c x.1 x.2 with
    | none => rfl
    | some c1 => exact ih hn.2 c1
  | swap x y l =>
    intro hn c
    rw [List.map_cons, List.map_cons, List.nodup_cons] at hn
    have hyx : y.1 ≠ x.1 := by
      intro e
      exact hn.1 (by rw [e]; exact List.mem_cons_self _ _)
    show (Clause.Set c y.1 y.2).bind (fun c1 => (Clause.Set c1 x.1 x.2).bind
          fun c2 => foldSetO c2 l)
        = (Clause.Set c x.1 x.2).bind (fun c1 => (Clause.Set c1 y.1 y.2).bind
          fun c2 => foldSetO c2 l)
    rw [← option_bind_assoc, Clause.set_comm c y x hyx, option_bind_assoc]
  | trans h12 h23 ih12 ih23 =>
    intro hn c
    have hn2 : _ := ((h12.map Prod.fst).nodup_iff).mp hn
    rw [ih12 hn c, ih23 hn2 c]

/-! Helper lemmas about the schema reflector. -/

/-- The `Parse` loop, characterised over any accumulator: it appends one
column and one name per field passing the filter, in declaration order. -/
theorem parse_loop_eq (d : GoType → String) :
    ∀ (fs : List GoField) (sch : Schema),
      (fs.foldl (parseStep d) sch).Fields
          = sch.Fields ++ (fs.filter colPred).map (mkField d)
        ∧ (fs.foldl (parseStep d) sch).FieldNames
          = sch.FieldNames ++ (fs.filter colPred).map GoField.name := by
  intro fs
  induction fs with
  | nil => intro sch; simp
  | cons p ps ih =>
    intro sch
    cases h : colPred p with
    | false => simpa [parseStep, h] using ih sch
    | true =>
      have := ih { sch with
        Fields := sch.Fields ++ [mkField d p],
        FieldNames := sch.FieldNames ++ [p.name],
        fieldMap := fun n => if n = p.name then some (mkField d p) else sch.fieldMap n }
      simp only [List.foldl_cons, parseStep, h, if_true, List.filter_cons_of_pos,
        List.map_cons]
      constructor
      · rw [this.1]; simp
      · rw [this.2]; simp

/-- The `Parse` loop keeps `fieldMap` in step with `FieldNames`: a name is
mapped iff it was mapped before or belongs to a processed column. -/
theorem parse_loop_map (d : GoType → String) :
    ∀ (fs : List GoField) (sch : Schema) (n : String),
      ((fs.foldl (parseStep d) sch).fieldMap n).isSome
        ↔ ((sch.fieldMap n).isSome ∨ n ∈ (fs.filter colPred).map GoField.name) := by
  intro fs
  induction fs with
  | nil => intro sch n; simp
  | cons p ps ih =>
    intro sch n
    cases h : colPred p with
    | false => simpa [parseStep, h] using ih sch n
    | true =>
      have hstep := ih { sch with
        Fields := sch.Fields ++ [mkField d p],
        FieldNames := sch.FieldNames ++ [p.name],
        fieldMap := fun m => if m = p.name then some (mkField d p) else sch.fieldMap m } n
      simp only [List.foldl_cons, parseStep, h, if_true, List.filter_cons_of_pos,
        List.map_cons, List.mem_cons]
      rw [hstep]
      by_cases hn : n = p.name <;> simp [hn]

/-! Helper lemmas about the migration diff. -/

/-- The `difference` loop, characterised over any accumulator: it appends
exactly the elements of `a` absent from `b`, in `a`'s order. -/
theorem difference_loop_eq (b : List String) :
    ∀ (a : List String) (acc : List String),
      a.foldl (fun diff s => if b.contains s then diff else diff ++ [s]) acc
        = acc ++ a.filter (fun s => !(b.contains s)) := by
  intro a
  induction a with
  | nil => intro acc; simp
  | cons x xs ih =>
    intro acc
    cases h : b.contains x with
    | true =>
      simp at h
      simp only [List.foldl_cons, List.filter_cons]
      simp [h]
      simpa using ih acc
    | false =>
      simp at h
      simp only [List.foldl_cons, List.filter_cons]
      simp [h]
      simpa using ih (acc ++ [x])

/-! Helper lemmas about the UPDATE generator's map semantics. -/

/-- With pairwise-distinct keys, looking up the i-th emitted key in the
map yields exactly the i-th emitted value (positional key/value pairing is
value-correct per named column). -/
theorem mapLookup_parallel :
    ∀ (m : List (String × GoVal)), (m.map Prod.fst).Nodup →
      ∀ i : Nat,
        (match (m.map Prod.fst)[i]? with
         | some k => mapLookup m k
         | none => none)
          = (m.map Prod.snd)[i]? := by
  intro m
  induction m with
  | nil => intro _ i; simp
  | cons kv rest ih =>
    intro hn i
    rw [List.map_cons, List.nodup_cons] at hn
    cases i with
    | zero => simp [mapLookup, List.find?]
    | succ j =>
      simp only [List.map_cons, List.getElem?_cons_succ]
      have hrec := ih hn.2 j
      cases hk : (rest.map Prod.fst)[j]? with
      | none => rw [hk] at hrec; exact hrec
      | some k =>
        rw [hk] at hrec
        have hkmem : k ∈ rest.map Prod.fst := by
          have := List.getElem?_eq_some_iff.mp hk
          obtain ⟨hlt, hget⟩ := this
          exact hget ▸ List.getElem_mem hlt
        have hne : (kv.1 == k) = false := by
          rw [beq_eq_false_iff_ne]
          intro e
          exact hn.1 (e ▸ hkmem)
        simpa [mapLookup, List.find?, hne] using hrec

/-! Helper lemmas about the Update argument pairing. -/

/-- The key/value pairing loop panics on every odd-length argument list:
either an earlier type assertion fails, or the final `kv[i+1]` access is
out of range. -/
theorem kvPairs_odd : ∀ (l : List GoVal), l.length % 2 = 1 → kvPairs l = none
  | [], h => by simp at h
  | [_], _ => rfl
  | k :: v :: rest, h => by
      have hl : (k :: v :: rest).length = rest.length + 2 := by simp
      rw [hl] at h
      have hr : rest.length % 2 = 1 := by omega
      cases k with
      | str ks =>
          have := kvPairs_odd rest hr
          simp [kvPairs, this]
      | int n => rfl
      | strList l2 => rfl
      | list l2 => rfl
      | kvMap m2 => rfl

/-! Helper lemmas about the query assembled by `Find`. -/

/-- Joining a fragment list that ends in `x` produces a string that ends
in `x`. -/
theorem goJoin_last (l : List String) (x : String) :
    ∃ p, goJoin (l ++ [x]) " " = p ++ x := by
  cases l with
  | nil => exact ⟨"", rfl⟩
  | cons e es =>
    refine ⟨goJoin (e :: es) " " ++ " ", ?_⟩
    show (es ++ [x]).foldl (fun acc y => acc ++ " " ++ y) e = _
    rw [List.foldl_append]
    rfl

/-- When the Clause Set holds the LIMIT entry `("LIMIT ?", lv)`, the
query built in the `Find` order ends in the LIMIT fragment, and its
parameter list ends in `lv`, whatever other clauses are present. -/
theorem build_order_last_limit (c : Clause) (lv : List GoVal)
    (hl : c.sql CType.LIMIT = some "LIMIT ?")
    (hlv : c.sqlVars CType.LIMIT = some lv) :
    ∃ p vs, c.Build [CType.SELECT, CType.WHERE, CType.ORDERBY, CType.LIMIT]
      = (p ++ "LIMIT ?", vs ++ lv) := by
  rw [Clause.build_eq]
  have h1 : [CType.SELECT, CType.WHERE, CType.ORDERBY, CType.LIMIT].filterMap c.sql
      = ([CType.SELECT, CType.WHERE, CType.ORDERBY].filterMap c.sql) ++ ["LIMIT ?"] := by
    show ([CType.SELECT, CType.WHERE, CType.ORDERBY] ++ [CType.LIMIT]).filterMap c.sql = _
    rw [List.filterMap_append]
    simp [List.filterMap, hl]
  have h2 : ([CType.SELECT, CType.WHERE, CType.ORDERBY, CType.LIMIT].filterMap fun o =>
        (c.sql o).map fun _ => (c.sqlVars o).getD []).flatten
      = ([CType.SELECT, CType.WHERE, CType.ORDERBY].filterMap fun o =>
          (c.sql o).map fun _ => (c.sqlVars o).getD []).flatten ++ lv := by
    show (([CType.SELECT, CType.WHERE, CType.ORDERBY] ++ [CType.LIMIT]).filterMap fun o =>
        (c.sql o).map fun _ => (c.sqlVars o).getD []).flatten = _
    rw [List.filterMap_append, List.flatten_append]
    simp [List.filterMap, hl, hlv]
  obtain ⟨p, hp⟩ :=
    goJoin_last ([CType.SELECT, CType.WHERE, CType.ORDERBY].filterMap c.sql) "LIMIT ?"
  refine ⟨p, ([CType.SELECT, CType.WHERE, CType.ORDERBY].filterMap fun o =>
      (c.sql o).map fun _ => (c.sqlVars o).getD []).flatten, ?_⟩
  rw [h1, h2, hp]

/-! Claim theorems. -/

/-- Claim C1, evaluated at the failing input: on a Session whose
transaction handle is set, `Exec` and `QueryRows` route through the
transaction handle, but `QueryRow` executes on the direct database
connection — the source calls `s.db.QueryRow` where the sibling paths call
`s.DB()` — so the claim fails for the single-row query path. -/
theorem queryRow_bypasses_transaction :
    txSession.DB = Conn.tx
    ∧ (txSession.Exec spyDriver).1 = Except.ok 1
    ∧ (txSession.QueryRows spyDriver).1 = Except.ok [[GoVal.str "tx"]]
    ∧ (txSession.QueryRow spyDriver).1 = [GoVal.str "db"] :=
  ⟨rfl, rfl, rfl, rfl⟩

/-- Claim C2: `difference a b` returns exactly the elements of `a` not in
`b`, in `a`'s order (it equals the order-preserving filter of `a`, its
members are exactly the members of `a` absent from `b`, and it is a
sublist of `a`), and the migration diff is `difference declared live`
paired with `difference live declared`. -/
theorem migrate_diff_set_difference :
    ∀ (a b declared live : List String),
      difference a b = a.filter (fun s => !(b.contains s))
      ∧ (∀ x, x ∈ difference a b ↔ x ∈ a ∧ x ∉ b)
      ∧ (difference a b).Sublist a
      ∧ migrateDiff declared live
          = (declared.filter (fun s => !(live.contains s)),
             live.filter (fun s => !(declared.contains s))) := by
  intro a b declared live
  have hd : ∀ (u v : List String),
      difference u v = u.filter (fun s => !(v.contains s)) := by
    intro u v
    unfold difference
    rw [difference_loop_eq v u []]
    simp
  refine ⟨hd a b, ?_, ?_, ?_⟩
  · intro x
    rw [hd a b]
    simp [List.mem_filter]
  · rw [hd a b]
    exact List.filter_sublist _
  · unfold migrateDiff
    rw [hd declared live, hd live declared]

/-- Claim C3: all three execution paths — `Exec`, `QueryRow`, `QueryRows`
— leave the Session in the cleared state produced by `Clear` (empty
pending SQL, empty parameter list, empty Clause Set), whatever the driver
returns: the post-state does not depend on success or failure because the
deferred `Clear` is unconditional. -/
theorem execution_paths_reset_state :
    ∀ (s : Session) (d : Driver),
      (s.Exec d).2 = s.Clear
      ∧ (s.QueryRow d).2 = s.Clear
      ∧ (s.QueryRows d).2 = s.Clear
      ∧ s.Clear.sql = "" ∧ s.Clear.sqlVars = [] ∧ s.Clear.clause = Clause.empty :=
  fun _ _ => ⟨rfl, rfl, rfl, rfl, rfl, rfl⟩

/-- Claim C4: once a transaction is open, `Engine.Transaction` closes it
with exactly one of commit or rollback on every exit path: a panicking
callback rolls back and then re-raises the panic, an error-returning
callback rolls back, and a clean callback commits (a failed `Begin` opens
nothing and closes nothing). -/
theorem transaction_closes_exactly_once :
    ∀ (p : GoVal) (r : Option GoVal) (e bErr : String) (cErr : Option String),
      Engine.Transaction none (FnOutcome.panics p) cErr
        = (TxResult.panicked p, [TxClose.rollback])
      ∧ Engine.Transaction none (FnOutcome.returns r (some e)) cErr
        = (TxResult.returned r (some e), [TxClose.rollback])
      ∧ Engine.Transaction none (FnOutcome.returns r none) cErr
        = (TxResult.returned r cErr, [TxClose.commit])
      ∧ Engine.Transaction (some bErr) (FnOutcome.panics p) cErr
        = (TxResult.returned none (some bErr), [])
      ∧ ∀ o, (Engine.Transaction none o cErr).2.length = 1 := by
  intro p r e bErr cErr
  refine ⟨rfl, rfl, rfl, rfl, ?_⟩
  intro o
  cases o with
  | panics q => rfl
  | returns r2 e2 => cases e2 <;> rfl

/-- Claim C6: `Parse` produces exactly one column per exported,
non-anonymous field, in declaration order (anonymous and unexported
fields produce none); `FieldNames` is the `Name` projection of `Fields`
index for index; and the name-to-Field map holds exactly the produced
column names. -/
theorem parse_schema_shape :
    ∀ (d : GoType → String) (t : GoStructType),
      (Parse d t).Fields = (t.fields.filter colPred).map (mkField d)
      ∧ (Parse d t).FieldNames = ((Parse d t).Fields).map Field.Name
      ∧ (Parse d t).Fields.length = (t.fields.filter colPred).length
      ∧ ∀ n, (((Parse d t).fieldMap n).isSome ↔ n ∈ (Parse d t).FieldNames) := by
  intro d t
  unfold Parse
  have h := parse_loop_eq d t.fields
    { Model := t, Name := t.name, Fields := [], FieldNames := [], fieldMap := fun _ => none }
  have hm := parse_loop_map d t.fields
    { Model := t, Name := t.name, Fields := [], FieldNames := [], fieldMap := fun _ => none }
  refine ⟨?_, ?_, ?_, ?_⟩
  · rw [h.1]
    simp
  · rw [h.1, h.2]
    dsimp only
    simp only [List.nil_append]
    rw [List.map_map]
    rfl
  · rw [h.1]
    simp
  · intro n
    have hmn := hm n
    simp only [Option.isSome_none, Bool.false_eq_true, false_or] at hmn
    rw [hmn, h.2]
    simp

/-- Claim C7 counterexample: on the example Clause Set, after `Build`
returns, the Clause Set still holds the WHERE fragment and its parameter —
`Build` does not consume or invalidate the assembled entries. -/
theorem build_does_not_invalidate_cex :
    ((exClause.BuildSt buildOrder).2).sql CType.WHERE = some "WHERE Name = ?"
    ∧ ((exClause.BuildSt buildOrder).2).sqlVars CType.WHERE = some [GoVal.str "Tom"]
    ∧ ((exClause.BuildSt buildOrder).2).Build buildOrder = exClause.Build buildOrder :=
  ⟨rfl, rfl, rfl⟩

/-- Claim C7 as amended: `Build` (as a state transformer on its receiver)
leaves the Clause Set exactly as it was; the entries are invalidated only
when the Session clears its state on execution. -/
theorem build_preserves_clause_set :
    ∀ (c : Clause) (orders : List CType) (s : Session) (d : Driver),
      (c.BuildSt orders).2 = c ∧ ((s.Exec d).2).clause = Clause.empty :=
  fun _ _ _ _ => ⟨rfl, rfl⟩

/-- Claim C8: for any table and field-to-value map (the association-list
order standing for the unstable map iteration order), the UPDATE generator
emits `UPDATE t SET k1 = ?, ..., kn = ?` over exactly the map's keys, with
one parameter per key, and the i-th parameter is the map's value for the
i-th emitted key. -/
theorem update_generator_pairs_values :
    ∀ (t : String) (m : List (String × GoVal)), (m.map Prod.fst).Nodup →
      _update [GoVal.str t, GoVal.kvMap m]
        = some ("UPDATE " ++ t ++ " SET "
                  ++ goJoin ((m.map Prod.fst).map (fun k => k ++ " = ?")) ", ",
                m.map Prod.snd)
      ∧ (m.map Prod.snd).length = m.length
      ∧ ∀ i : Nat,
          (match (m.map Prod.fst)[i]? with
           | some k => mapLookup m k
           | none => none)
            = (m.map Prod.snd)[i]? := by
  intro t m hn
  refine ⟨?_, by simp, mapLookup_parallel m hn⟩
  unfold _update
  rw [List.map_map]
  rfl

/-- Claim C8 witness: the theorem applied to a concrete two-column map. -/
theorem update_generator_pairs_values_witness :
    ((["Name", "Age"] : List String).Nodup)
    ∧ _update [GoVal.str "User",
               GoVal.kvMap [("Name", GoVal.str "Tom"), ("Age", GoVal.int 30)]]
        = some ("UPDATE User SET Name = ?, Age = ?",
                [GoVal.str "Tom", GoVal.int 30]) := by
  refine ⟨by decide, ?_⟩
  exact ((update_generator_pairs_values "User"
    [("Name", GoVal.str "Tom"), ("Age", GoVal.int 30)] (by decide)).1).trans rfl

/-- Claim C10: `Session.Update` is not total on its public interface:
with zero arguments it panics on the `kv[0]` access, and with a non-map
first argument and an odd argument count it panics in the key/value
pairing loop — modelled by the `none` result — rather than returning an
error value. -/
theorem update_panics_on_bad_arity :
    (∀ (s : Session) (d : Driver) (tn : String), s.Update d tn [] = none)
    ∧ (∀ (s : Session) (d : Driver) (tn : String) (v : GoVal) (kv : List GoVal),
        isKvMap v = false → (v :: kv).length % 2 = 1 →
          s.Update d tn (v :: kv) = none) := by
  constructor
  · intro s d tn
    rfl
  · intro s d tn v kv hv hodd
    have hnorm : updateNormalize (v :: kv) = none := by
      cases v with
      | kvMap m2 => simp [isKvMap] at hv
      | str ks => exact kvPairs_odd _ hodd
      | int n => exact kvPairs_odd _ hodd
      | strList l2 => exact kvPairs_odd _ hodd
      | list l2 => exact kvPairs_odd _ hodd
    show (updateNormalize (v :: kv)).bind _ = none
    rw [hnorm]
    rfl

/-- Claim C10 witness: the theorem applied to the empty argument list and
to the odd-length single argument `"Age"`. -/
theorem update_panics_on_bad_arity_witness :
    sampleSession.Update spyDriver "User" [] = none
    ∧ isKvMap (GoVal.str "Age") = false
    ∧ ([GoVal.str "Age"] : List GoVal).length % 2 = 1
    ∧ sampleSession.Update spyDriver "User" [GoVal.str "Age"] = none := by
  refine ⟨update_panics_on_bad_arity.1 sampleSession spyDriver "User", rfl, rfl, ?_⟩
  exact update_panics_on_bad_arity.2 sampleSession spyDriver "User"
    (GoVal.str "Age") [] rfl rfl

/-- Claim C5: setting SELECT("User", ["*"]), WHERE("Name = ?", "Tom"),
ORDERBY("Age DESC") and LIMIT(3) in any order and then building
SELECT+WHERE+ORDERBY+LIMIT yields exactly the expected SQL text and the
parameter list ["Tom", 3]; and, in general, `Build` joins the fragments of
the kinds present with single spaces in the caller's order, skipping
absent kinds, and concatenates their parameters in the same order. -/
theorem build_select_example_and_general :
    (∀ l, l.Perm ops4 →
      (foldSetO Clause.empty l).map (fun c => c.Build buildOrder)
        = some ("SELECT * FROM User WHERE Name = ? ORDER BY Age DESC LIMIT ?",
                [GoVal.str "Tom", GoVal.int 3]))
    ∧ (∀ (c : Clause) (orders : List CType),
        c.Build orders = (goJoin (orders.filterMap c.sql) " ",
          (orders.filterMap fun o =>
            (c.sql o).map fun _ => (c.sqlVars o).getD []).flatten)) := by
  constructor
  · intro l hl
    have hnd : (l.map Prod.fst).Nodup :=
      ((hl.map Prod.fst).nodup_iff).mpr (by decide)
    rw [foldSet_perm hl hnd Clause.empty]
    rfl
  · intro c orders
    exact Clause.build_eq c orders

/-- Claim C5 witness: the theorem applied to the repository test's own
setting order (LIMIT, SELECT, WHERE, ORDERBY). -/
theorem build_select_example_and_general_witness :
    (foldSetO Clause.empty ops4).map (fun c => c.Build buildOrder)
      = some ("SELECT * FROM User WHERE Name = ? ORDER BY Age DESC LIMIT ?",
              [GoVal.str "Tom", GoVal.int 3]) :=
  build_select_example_and_general.1 ops4 (List.Perm.refl ops4)

/-- Claim C9: `First` executes a query whose text ends in the LIMIT
fragment and whose parameters end in the limit value 1, and its outcome is
exactly the case analysis of the driver's response: a query error is
propagated as a driver error, zero rows yield the distinct NOT FOUND
error, and otherwise the sole result row is copied into the destination
and returned without error. -/
theorem first_runs_limit_one_query :
    ∀ (s : Session) (d : Driver) (table : Schema),
      ∃ (q : String) (vars : List GoVal) (s2 : Session),
        (∃ p, q = p ++ "LIMIT ? ")
        ∧ (∃ vs, vars = vs ++ [GoVal.int 1])
        ∧ s.First d table
            = some ((match d.query s.DB q vars with
                     | Except.error e => Except.error (GoErr.driver e)
                     | Except.ok [] => Except.error GoErr.notFound
                     | Except.ok (r :: _) => Except.ok r), s2) := by
  intro s d table
  simp only [Session.First, Session.Limit, Session.Find, Clause.Set, generators, _limit,
    _select, Session.QueryRows, Session.Raw, Session.Clear, Session.DB,
    Option.map_some', Option.some_bind]
  obtain ⟨p, vs, hbv⟩ := build_order_last_limit
    ⟨fun t => if t = CType.SELECT
        then some ("SELECT " ++ goJoin table.FieldNames ", " ++ " FROM "
                     ++ gfmt (GoVal.str table.Name))
        else if t = CType.LIMIT then some "LIMIT ?" else s.clause.sql t,
     fun t => if t = CType.SELECT then some []
        else if t = CType.LIMIT then some [GoVal.int 1] else s.clause.sqlVars t⟩
    [GoVal.int 1] rfl rfl
  rw [hbv]
  dsimp only
  refine ⟨s.sql ++ (p ++ "LIMIT ?") ++ " ", s.sqlVars ++ (vs ++ [GoVal.int 1]),
    { sql := "", sqlVars := [], clause := Clause.empty, tx := s.tx }, ?_, ?_, ?_⟩
  · refine ⟨s.sql ++ p, ?_⟩
    rw [← String.append_assoc s.sql p "LIMIT ?", String.append_assoc (s.sql ++ p) "LIMIT ?" " "]
    rfl
  · exact ⟨s.sqlVars ++ vs, by rw [List.append_assoc]⟩
  · cases hq : d.query (if s.tx = true then Conn.tx else Conn.db)
        (s.sql ++ (p ++ "LIMIT ?") ++ " ") (s.sqlVars ++ (vs ++ [GoVal.int 1])) with
    | error e => rfl
    | ok rows =>
      cases rows with
      | nil => rfl
      | cons r rest => rfl

end Geeorm
